import Mathlib

/-!
Verification of the diosgen code generator (src/diosgen.py) against its
natural-language specification.  The Python source is shallowly embedded:
dataclasses become structures, text emission becomes `List String` of the
printed lines, the generated PIC instruction sequences that the claims
reason about are given a small operational semantics, and Python
exceptions (raises as well as crashes such as UnboundLocalError) become
`Except` errors / dedicated error constructors.
-/

namespace Dios

/-- Embeds dataclass ConstDef (diosgen.py:31): name, reduction operator, identity. -/
structure ConstDef where
  name : String
  op : String
  init : Int
deriving DecidableEq

/-- Embeds dataclass IRQDef (diosgen.py:41): phase, flagfile, flagbit. -/
structure IRQDef where
  phase : String
  flagfile : String
  flagbit : String
deriving DecidableEq

/-- Embeds dataclass WakeSourceDef (diosgen.py:47): enable file and bit. -/
structure WakeSourceDef where
  enfile : String
  enbit : String
deriving DecidableEq

/-- Embeds dataclass QueueDef (diosgen.py:56).  EventDef carries only a name,
so a queue's event list is embedded as the list of event names. -/
structure QueueDef where
  name : String
  events : List String := []
  phase : Option String := none
deriving DecidableEq

/-- Embeds QueueDef.is_large (diosgen.py:63): more than 16 events. -/
def QueueDef.is_large (q : QueueDef) : Bool := q.events.length > 16

/-- Embeds QueueDef.is_tiny (diosgen.py:66): fewer than 4 events. -/
def QueueDef.is_tiny (q : QueueDef) : Bool := q.events.length < 4

/-- Embeds dataclass ProgramDef (diosgen.py:68).  ModuleDef holds only a path,
so modules are embedded as the list of paths; the insertion-ordered events
dict is embedded as the insertion-ordered list of event names. -/
structure ProgramDef where
  srcname : String := "-"
  includes : List String := []
  modules : List String := []
  consts : List ConstDef := []
  phases : List String := []
  irqs : List IRQDef := []
  events : List String := []
  queues : List QueueDef := []
  wakesrcs : List WakeSourceDef := []
  sleepable : Bool := false
deriving DecidableEq

/-- Embeds ProgramDef.phase_has_priorities (diosgen.py:81): more than one
queue owns the given phase (the phase argument may be None, as when it is
taken from an unassigned queue). -/
def ProgramDef.phase_has_priorities (p : ProgramDef) (phase : Option String) : Bool :=
  (p.queues.filter (fun q => q.phase = phase)).length > 1

/-! ## Queue data layout and the post macro (generate_queue_udata,
generate_queue_consts, generate_queue_macros) -/

/-- Number of bitmap bytes reserved for a queue of n events: the udata
emission (diosgen.py:260) reserves `(dios_qsz + 7) / 8` bytes where
dios_qsz equals n. -/
def bitmapBytes (n : Nat) : Nat := (n + 7) / 8

/-- The event-bit constant for event position j of the queue with ordinal
qid: generate_queue_consts (diosgen.py:249) starts the cblock at
`qid << 8` and names the events in declaration order. -/
def eventBitConst (qid j : Nat) : Nat := (qid <<< 8) + j

/-- Bitmap byte offset computed by the emitted post macro: the bsf operand
in generate_queue_macros (diosgen.py:265) is
`dios_q_<q> + ((bit) + 7) / 8`, so the macro touches byte
`((bit) + 7) / 8` of the bitmap (MPASM integer division). -/
def postByteIndex (bit : Nat) : Nat := (bit + 7) / 8

/-- Bit position computed by the emitted post macro (diosgen.py:265):
`(bit) % 8`. -/
def postBitIndex (bit : Nat) : Nat := bit % 8

/-- Bitmap byte in which the drain handler serves event position j: the
scan loops of generate_queue_handler (diosgen.py:324-341) handle bit j
inside byte i exactly for j in `[i*8, i*8+8)`, i.e. byte `j / 8`. -/
def drainByteIndex (j : Nat) : Nat := j / 8

/-- Bit position at which the drain handler serves event position j
(diosgen.py:341 clears bit `j - i * 8` of byte i, i.e. `j % 8`). -/
def drainBitIndex (j : Nat) : Nat := j % 8

/-! ## A small operational model of the emitted PIC14 instructions

The queue-has-work macro (diosqsc) and the sleep gate are straight-line
instruction sequences; the claims about them concern the run-time
behaviour of those sequences.  Operands are kept as the symbol strings
the generator prints; a bit environment resolves symbolic bit names
(Z, C, GIE, numerals) to bit positions.  `banksel`/`pagesel` only touch
bank/page selection bits (RP0/RP1/PCLATH), which none of the modelled
sequences read, so they are modelled as no-ops; in every modelled
sequence the instruction following a bit-test skip is a single-word
instruction, so the one-instruction skip is faithful. -/

/-- The PIC14 instructions appearing in the modelled sequences. -/
inductive Instr where
  | banksel : String → Instr
  | pagesel : String → Instr
  | movfF : String → Instr
  | clrw : Instr
  | iorwfW : String → Instr
  | btfsc : String → String → Instr
  | btfss : String → String → Instr
  | bsf : String → String → Instr
  | bcf : String → String → Instr
  | goto : String → Instr
  | sleepIns : Instr
deriving DecidableEq

/-- Machine state: a file-register store (bytes addressed by the symbol
the generator prints), the W register, whether the next instruction is
skipped (the effect of btfsc/btfss), and whether a goto has fired (the
modelled sequences are straight-line up to a final conditional goto). -/
structure Mach where
  regs : String → Nat
  w : Nat
  skipNext : Bool
  jumped : Bool

/-- Set bit b of a byte value. -/
def setBitN (v b : Nat) : Nat := v ||| (1 <<< b)

/-- Clear bit b of a byte value. -/
def clearBitN (v b : Nat) : Nat := if v.testBit b then v - (1 <<< b) else v

/-- Update one file register. -/
def setReg (regs : String → Nat) (f : String) (v : Nat) : String → Nat :=
  fun s => if s = f then v else regs s

/-- Record the Z flag as bit (benv "Z") of the STATUS file, as the
assembled `STATUS, Z` operands do. -/
def setZ (benv : String → Nat) (m : Mach) (z : Bool) : Mach :=
  let st := if z then setBitN (m.regs "STATUS") (benv "Z")
            else clearBitN (m.regs "STATUS") (benv "Z")
  { m with regs := setReg m.regs "STATUS" st }

/-- Effect of one (non-skipped) instruction.  movf f,F rewrites f with
itself and sets Z accordingly; clrw zeroes W and sets Z; iorwf f,W ORs f
into W and sets Z from the result; btfsc/btfss arm the skip; goto ends
the straight-line run. -/
def exec (benv : String → Nat) (m : Mach) : Instr → Mach
  | .banksel _ => m
  | .pagesel _ => m
  | .movfF f => setZ benv m (m.regs f == 0)
  | .clrw => setZ benv { m with w := 0 } true
  | .iorwfW f =>
      let r := m.w ||| m.regs f
      setZ benv { m with w := r } (r == 0)
  | .btfsc f b => { m with skipNext := !(m.regs f).testBit (benv b) }
  | .btfss f b => { m with skipNext := (m.regs f).testBit (benv b) }
  | .bsf f b => { m with regs := setReg m.regs f (setBitN (m.regs f) (benv b)) }
  | .bcf f b => { m with regs := setReg m.regs f (clearBitN (m.regs f) (benv b)) }
  | .goto _ => { m with jumped := true }
  | .sleepIns => m

/-- One step honouring a pending skip and a taken goto. -/
def step (benv : String → Nat) (m : Mach) (i : Instr) : Mach :=
  if m.jumped then m
  else if m.skipNext then { m with skipNext := false }
  else exec benv m i

/-- Run a straight-line sequence. -/
def run (benv : String → Nat) (is : List Instr) (m : Mach) : Mach :=
  is.foldl (step benv) m

/-- The standard bit bindings of the p16f887 include file for the symbols
the modelled sequences use: STATUS.C = 0, STATUS.Z = 2, INTCON.GIE = 7;
numeral operands denote themselves. -/
def stdBits : String → Nat :=
  fun s =>
    if s = "Z" then 2
    else if s = "GIE" then 7
    else if s = "1" then 1
    else if s = "2" then 2
    else 0

/-- Symbol of a queue's state byte (dios_qstate_<name>). -/
def qstateName (q : QueueDef) : String := "dios_qstate_" ++ q.name

/-- Symbol of a queue's bitmap base (dios_q_<name>). -/
def qmapName (q : QueueDef) : String := "dios_q_" ++ q.name

/-- Symbol the generator prints for bitmap byte i (dios_q_<name> + i). -/
def qmapNameI (q : QueueDef) (i : Nat) : String :=
  "dios_q_" ++ q.name ++ " + " ++ toString i

/-- The instruction sequence of the emitted queue-has-work macro
diosqsc_<queue>, from generate_queue_macros (diosgen.py:275-289): large
queues banksel and bit-test state bit 0; queues with at most 8 events
movf the single bitmap byte; queues with 9..16 events OR all bitmap
bytes into W; the two non-large shapes end in `btfsc STATUS, Z`. -/
def diosqscInstrs (q : QueueDef) : List Instr :=
  if q.is_large then
    [.banksel (qstateName q), .btfsc (qstateName q) "0"]
  else
    (if q.events.length ≤ 8 then
      [.banksel (qmapName q), .movfF (qmapName q)]
    else
      .clrw ::
        (List.range ((q.events.length + 7) / 8)).flatMap
          (fun i => [.banksel (qmapNameI q i), .iorwfW (qmapNameI q i)]))
    ++ [.btfsc "STATUS" "Z"]

/-- Whether the instruction placed directly after the diosqsc expansion
would be skipped, starting from machine state m. -/
def qscSkips (benv : String → Nat) (q : QueueDef) (m : Mach) : Bool :=
  (run benv (diosqscInstrs q) m).skipNext

/-- The sleep-gate instruction sequence emitted by generate_sleep
(diosgen.py:409-436), up to and including the conditional branch to
phase_sleep_done: seed C from the existence of wake sources, OR in each
wake source's enable bit, clear C unless INTCON.GIE is set, then for
every queue owned by phase idle expand diosqsc followed by `bcf
STATUS, C`, and finally skip the goto to phase_sleep_done when C is
set. -/
def sleepGateInstrs (p : ProgramDef) : List Instr :=
  (if p.wakesrcs.isEmpty then [Instr.bsf "STATUS" "C"] else [Instr.bcf "STATUS" "C"])
  ++ p.wakesrcs.flatMap
      (fun ws => [Instr.banksel ws.enfile, Instr.btfsc ws.enfile ws.enbit,
                  Instr.bsf "STATUS" "C"])
  ++ [Instr.banksel "INTCON", Instr.btfss "INTCON" "GIE", Instr.bcf "STATUS" "C"]
  ++ (p.queues.filter (fun q => q.phase = some "idle")).flatMap
      (fun q => diosqscInstrs q ++ [Instr.bcf "STATUS" "C"])
  ++ [Instr.pagesel "phase_sleep_done", Instr.btfss "STATUS" "C",
      Instr.goto "phase_sleep_done"]

/-- The sleep phase (with its sleep instruction) is entered exactly when
the gate's final goto to phase_sleep_done is not taken. -/
def sleepRuns (benv : String → Nat) (p : ProgramDef) (m : Mach) : Bool :=
  !(run benv (sleepGateInstrs p) m).jumped

/-- A machine whose file registers all read v0 except the listed
overrides, with no pending skip. -/
def machOf (over : List (String × Nat)) : Mach :=
  { regs := fun s => ((over.find? (fun p => p.1 = s)).map Prod.snd).getD 0,
    w := 0, skipNext := false, jumped := false }

/-! ## Module weaver (generate_modules, diosgen.py:218-234) -/

/-- Embeds generate_modules: nothing at all is printed when the program
has no modules; otherwise the main pass (when requested) defines
diosh_<aspect>, includes every module path in declaration order and
undefines the symbol, and the post pass (when requested) does the same
with diosph_<aspect> over the reversed module list. -/
def generate_modules (aspect : String) (p : ProgramDef) (main post : Bool) : List String :=
  if p.modules.isEmpty then [] else
    (if main then
      ["\t#define\tdiosh_" ++ aspect ++ "\t1"] ++
      p.modules.map (fun path => "\tinclude\t\"" ++ path ++ "\"") ++
      ["\t#undefine\tdiosh_" ++ aspect]
    else []) ++
    (if post then
      ["\t#define\tdiosph_" ++ aspect ++ "\t1"] ++
      p.modules.reverse.map (fun path => "\tinclude\t\"" ++ path ++ "\"") ++
      ["\t#undefine\tdiosph_" ++ aspect]
    else [])

/-- Modelled from the spec's words for the weaver's main pass (§4.2): "emit
a definition of the symbol diosh_A, then for each module in declaration
order emit an include of the module's path, then emit an undefinition of
diosh_A".  Used as the refinement target for C8. -/
def weaverMainPassSpec (aspect : String) (paths : List String) : List String :=
  ["\t#define\tdiosh_" ++ aspect ++ "\t1"] ++
  paths.map (fun path => "\tinclude\t\"" ++ path ++ "\"") ++
  ["\t#undefine\tdiosh_" ++ aspect]

/-- Modelled from the spec's words for the weaver's post pass (§4.2): the
same with diosph_A, iterating modules in reverse declaration order. -/
def weaverPostPassSpec (aspect : String) (paths : List String) : List String :=
  ["\t#define\tdiosph_" ++ aspect ++ "\t1"] ++
  paths.reverse.map (fun path => "\tinclude\t\"" ++ path ++ "\"") ++
  ["\t#undefine\tdiosph_" ++ aspect]

/-! ## Queue drain handler (generate_queue_handler, diosgen.py:305-374) -/

/-- The Python of generate_queue_handler, for a large queue whose phase
has priorities, evaluates the f-string
`banksel dios_qstate_... + {i}` (diosgen.py:319) where the loop index i
has not yet been assigned; CPython raises UnboundLocalError there, so
generation fails.  The embedding surfaces that crash as this error. -/
def unboundLocalMsg : String :=
  "UnboundLocalError: local variable i referenced before assignment"

/-- The per-byte skip label dios_w<i>end_<queue>. -/
def wendLabel (q : QueueDef) (i : Nat) : String :=
  "dios_w" ++ toString i ++ "end_" ++ q.name

/-- The out-of-line implementation label dios_b<j>impl_<queue>. -/
def bimplLabel (q : QueueDef) (j : Nat) : String :=
  "dios_b" ++ toString j ++ "impl_" ++ q.name

/-- The per-bit end label dios_b<j>end_<queue>. -/
def bendLabel (q : QueueDef) (j : Nat) : String :=
  "dios_b" ++ toString j ++ "end_" ++ q.name

/-- The queue-end label dios_qend_<queue>. -/
def qendLabel (q : QueueDef) : String := "dios_qend_" ++ q.name

/-- Handler header (diosgen.py:308-322): the comment line, then for large
queues the state-bit-0 gate (clear bit 1, skip to the queue-end label
when bit 0 is clear, else clear bit 0), or for prioritized non-large
queues just the clearing of state bit 1. -/
def handlerHeader (q : QueueDef) (has_prios : Bool) : List String :=
  ["\t; Queue handler for " ++ q.name] ++
  (if q.is_large then
    ["\tbcf\t" ++ qstateName q ++ ", 1",
     "\tpagesel\t" ++ qendLabel q,
     "\tbanksel\t" ++ qstateName q,
     "\tbtfss\t" ++ qstateName q ++ ", 0",
     "\tgoto\t" ++ qendLabel q,
     "\tbcf\t" ++ qstateName q ++ ", 0"]
   else if has_prios then ["\tbcf\t" ++ qstateName q ++ ", 1"]
   else [])

/-- Per-byte zero test (diosgen.py:326-334), skipped entirely for tiny
queues; in priority mode it is followed by setting state bit 1. -/
def wordScanLines (q : QueueDef) (has_prios : Bool) (i : Nat) : List String :=
  if q.is_tiny then [] else
    ["\tpagesel\t" ++ wendLabel q i,
     "\tbanksel\t" ++ qmapNameI q i,
     "\tmovf\t" ++ qmapNameI q i ++ ", F",
     "\tbtfsc\tSTATUS, Z",
     "\tgoto\t" ++ wendLabel q i] ++
    (if has_prios then
      ["\tbanksel\t" ++ qstateName q ++ " + " ++ toString i,
       "\tbsf\t" ++ qstateName q ++ ", 1"]
     else [])

/-- Inline bit test for bit j of byte i plus the in-line end label
(diosgen.py:340-342 and 356). -/
def bitScanLines (q : QueueDef) (i j : Nat) : List String :=
  ["\tpagesel\t" ++ bimplLabel q j,
   "\tbtfsc\t" ++ qmapNameI q i ++ ", " ++ toString (j - i * 8),
   "\tgoto\t" ++ bimplLabel q j,
   bendLabel q j ++ ":"]

/-- Out-of-line implementation block for bit j of byte i
(diosgen.py:345-354): clear the bit, weave the per-event module aspect,
for tiny prioritized queues set state bit 1, re-banksel the bitmap byte
unless this is the byte's last bit, and return to the inline end
label. -/
def bitImplLines (q : QueueDef) (p : ProgramDef) (has_prios : Bool) (i j endbit : Nat) :
    List String :=
  [bimplLabel q j ++ ":",
   "\tbcf\t" ++ qmapNameI q i ++ ", " ++ toString (j - i * 8)] ++
  generate_modules ("event_" ++ q.name ++ "_" ++ (q.events.getD j "")) p true true ++
  (if q.is_tiny && has_prios then
    ["\tbanksel\t" ++ qstateName q ++ " + " ++ toString i,
     "\tbsf\t" ++ qstateName q ++ ", 1"]
   else []) ++
  (if j ≠ endbit - 1 then ["\tbanksel\t" ++ qmapNameI q i] else []) ++
  ["\tpagesel\t" ++ bendLabel q j,
   "\tgoto\t" ++ bendLabel q j]

/-- Main-file lines of the drain loop for bitmap byte i (diosgen.py:324-361). -/
def byteMainLines (q : QueueDef) (has_prios : Bool) (i : Nat) : List String :=
  let endbit := min q.events.length (i * 8 + 8)
  wordScanLines q has_prios i ++
  (List.range' (i * 8) (endbit - i * 8)).flatMap (bitScanLines q i) ++
  (if q.is_tiny then [] else
    (if !q.is_large && has_prios then ["\tbsf\t" ++ qstateName q ++ ", 1"] else []) ++
    [wendLabel q i ++ ":"])

/-- Implementation-file lines of the drain loop for bitmap byte i. -/
def byteImplLines (q : QueueDef) (p : ProgramDef) (has_prios : Bool) (i : Nat) : List String :=
  let endbit := min q.events.length (i * 8 + 8)
  (List.range' (i * 8) (endbit - i * 8)).flatMap
    (fun j => bitImplLines q p has_prios i j endbit)

/-- Handler tail (diosgen.py:363-374): in priority mode, for non-large
queues a branch back to the phase start label conditional on state bit 1
(btfsc state, 1 skips the goto when the bit is clear), for large queues
an unconditional branch; then for large queues the queue-end label. -/
def handlerTail (q : QueueDef) (has_prios : Bool) (startlabel : String) : List String :=
  (if has_prios then
    (if !q.is_large then
      ["\tpagesel\t" ++ startlabel,
       "\tbanksel\t" ++ qstateName q,
       "\tbtfsc\t" ++ qstateName q ++ ", 1",
       "\tgoto\t" ++ startlabel]
     else ["\tpagesel\t" ++ startlabel, "\tgoto\t" ++ startlabel])
   else []) ++
  (if q.is_large then [qendLabel q ++ ":"] else [])

/-- Embeds generate_queue_handler (diosgen.py:305-374): returns the main
file lines and the implementation-stream lines, or the UnboundLocalError
crash for a large queue in priority mode (diosgen.py:319 references the
loop index i before any assignment). -/
def generate_queue_handler (q : QueueDef) (p : ProgramDef) (startlabel : String) :
    Except String (List String × List String) :=
  let has_prios := p.phase_has_priorities q.phase
  if q.is_large && has_prios then .error unboundLocalMsg
  else
    .ok (handlerHeader q has_prios ++
          (List.range (bitmapBytes q.events.length)).flatMap (byteMainLines q has_prios) ++
          handlerTail q has_prios startlabel,
         (List.range (bitmapBytes q.events.length)).flatMap (byteImplLines q p has_prios))

/-- Main-file lines of a queue's drain handler (empty when generation
crashes). -/
def handlerMain (q : QueueDef) (p : ProgramDef) (startlabel : String) : List String :=
  match generate_queue_handler q p startlabel with
  | .ok pr => pr.1
  | .error _ => []

/-! ## The description parser (splitargs and parse_lines, diosgen.py:84-216)

A source line is embedded as the group decomposition produced by LINE_RE
(diosgen.py:21): an optional leading label, an optional op, the raw
argument text, and an optional comment; exact inter-token whitespace is
not recoverable from the groups, so re-rendered lines (used only inside
the unknown-op diagnostic) join the groups with single separators.
Python exceptions become the ParseErr constructors below; uncaught
crashes (IndexError, TypeError, KeyError) get dedicated constructors. -/

/-- A single-character version of Python str.isidentifier (ASCII): a
letter or underscore. -/
def isIdentStart (c : Char) : Bool := c.isAlpha || c = '_'

/-- The character class of ID_RE's `\w` (ASCII): letter, digit or
underscore. -/
def isWordChar (c : Char) : Bool := c.isAlphanum || c = '_'

/-- The character class of NUM_RE (diosgen.py:85): `[0-9a-fA-FoOxX]`. -/
def isNumChar (c : Char) : Bool :=
  c.isDigit || ('a' ≤ c && c ≤ 'f') || ('A' ≤ c && c ≤ 'F') ||
  c = 'o' || c = 'O' || c = 'x' || c = 'X'

/-- Scan the body of STR_RE (diosgen.py:84) after the opening quote:
a sequence of non-quote non-backslash characters or backslash escapes,
closed by a quote.  Returns the scanned characters (closing quote
included) and the remainder, or none when the string is unterminated. -/
def scanStrBody : List Char → Option (List Char × List Char)
  | [] => none
  | '"' :: rest => some (['"'], rest)
  | '\\' :: c :: rest => (scanStrBody rest).map (fun pr => ('\\' :: c :: pr.1, pr.2))
  | c :: rest =>
      if c = '\\' then none
      else (scanStrBody rest).map (fun pr => (c :: pr.1, pr.2))

/-- Embeds the body of the splitargs while loop (diosgen.py:91-112).  The
fuel only bounds the loop (each iteration consumes at least one
character, so fuel = length + 1 never runs out). -/
def splitargsGo : Nat → List Char → Except String (List String)
  | _, [] => .ok []
  | 0, _ :: _ => .error "Fuel exhausted"
  | fuel + 1, c :: rest =>
      let tokRes : Except String (List Char × List Char) :=
        if c = '"' then
          match scanStrBody rest with
          | none => .error ("Unterminated string: " ++ String.mk (c :: rest))
          | some (body, r) => .ok ('"' :: body, r)
        else if isIdentStart c then
          .ok ((c :: rest).takeWhile isWordChar, (c :: rest).dropWhile isWordChar)
        else if c.isDigit then
          .ok ((c :: rest).takeWhile isNumChar, (c :: rest).dropWhile isNumChar)
        else .error ("Unknown argument: " ++ String.mk (c :: rest))
      match tokRes with
      | .error m => .error m
      | .ok (tok, r) =>
          let r2 := r.dropWhile Char.isWhitespace
          match r2 with
          | [] => .ok [String.mk tok]
          | c2 :: r3 =>
              if c2 = ',' then
                match splitargsGo fuel (r3.dropWhile Char.isWhitespace) with
                | .error m => .error m
                | .ok toks => .ok (String.mk tok :: toks)
              else .error ("Expected comma in argument: " ++ String.mk r2)

/-- Embeds splitargs (diosgen.py:88-114). -/
def splitargs (s : String) : Except String (List String) :=
  splitargsGo (s.length + 1) s.toList

/-- The LINE_RE group decomposition of one source line. -/
structure SrcLine where
  lbl : Option String := none
  op : Option String := none
  args : Option String := none
  cmnt : Option String := none
deriving DecidableEq

/-- Approximate re-rendering of a line from its groups (exact whitespace
is not part of the group model); used only inside the unknown-op
diagnostic, which echoes the raw line. -/
def renderLine (l : SrcLine) : String :=
  (l.lbl.getD "") ++
  (match l.op with | none => "" | some o => "\t" ++ o) ++
  (match l.args with | none => "" | some a => " " ++ a) ++
  (match l.cmnt with | none => "" | some c => " " ++ c)

/-- Python repr of a string, simplified to single quotes without escape
handling; used in the op-arity diagnostics that format the argument
list. -/
def pyStrRepr (s : String) : String := "'" ++ s ++ "'"

/-- Python repr of a list of strings. -/
def pyListRepr (l : List String) : String :=
  "[" ++ String.intercalate ", " (l.map pyStrRepr) ++ "]"

/-- An optional phase formatted by an f-string (None or the bare name). -/
def pyOptPhase : Option String → String
  | none => "None"
  | some s => s

/-- An optional phase formatted by `!r` (None or the quoted name). -/
def pyPhaseRepr : Option String → String
  | none => "None"
  | some s => "'" ++ s ++ "'"

/-- The failures parse_lines can surface.  atLine covers every raise of
the form `f"{path}:{lno} ..."`; unknownOp is the prefixed unknown-op
raise (diosgen.py:193), which echoes the raw line; unknownPhase and
dupEvent are the two post-parse validation raises (diosgen.py:201,210)
that carry no path:line prefix; the py* constructors are the uncaught
crashes (event with no preceding queue, arity check on an op given no
arguments, unknown const reduction). -/
inductive ParseErr where
  | atLine : String → Nat → String → ParseErr
  | unknownOp : String → Nat → SrcLine → ParseErr
  | unknownPhase : String → Option String → ParseErr
  | dupEvent : String → String → Option String → String → ParseErr
  | pyIndexError : ParseErr
  | pyTypeError : ParseErr
  | pyKeyError : String → ParseErr
deriving DecidableEq

/-- The diagnostic text of a failure, as Python prints it. -/
def ParseErr.render : ParseErr → String
  | .atLine path lno msg => path ++ ":" ++ toString lno ++ " " ++ msg
  | .unknownOp path lno l =>
      path ++ ":" ++ toString lno ++ " Unknown events op: " ++ renderLine l
  | .unknownPhase qname ph =>
      "Unknown phase requested for evqueue " ++ qname ++ ": " ++ pyOptPhase ph
  | .dupEvent q1 q2 ph e =>
      "Both queue " ++ q1 ++ " and " ++ q2 ++ " in phase " ++ pyPhaseRepr ph ++
      " contain event " ++ e
  | .pyIndexError => "IndexError: list index out of range"
  | .pyTypeError => "TypeError: object of type 'NoneType' has no len()"
  | .pyKeyError k => "KeyError: '" ++ k ++ "'"

/-- Parser loop state: the program under construction plus the dios and
wakealways flags (diosgen.py:117-119). -/
structure PState where
  prog : ProgramDef
  dios : Bool := false
  wakealways : Bool := false
deriving DecidableEq

/-- Python s[1:-1], as applied to the quoted include/module argument. -/
def stripQuotes (s : String) : String := (s.drop 1).dropRight 1

/-- The event op (diosgen.py:158-159): reuse or insert the program-global
event, then append it to the most recently declared queue; none when no
queue precedes (Python: IndexError on queues[-1]). -/
def addEventTo (p : ProgramDef) (name : String) : Option ProgramDef :=
  match p.queues.getLast? with
  | none => none
  | some lq =>
      some { p with
        events := if name ∈ p.events then p.events else p.events ++ [name],
        queues := p.queues.dropLast ++ [{ lq with events := lq.events ++ [name] }] }

/-- The const reduction table (diosgen.py:181-188); none models the
KeyError on an unknown reduction name. -/
def constLookup (s : String) : Option (String × Int) :=
  if s = "and" then some ("&", -1)
  else if s = "or" then some ("|", 0)
  else if s = "xor" then some ("^", 0)
  else if s = "add" then some ("+", 0)
  else if s = "sub" then some ("-", 0)
  else none

/-- The op dispatch chain of parse_lines (diosgen.py:143-193).  The
final else raises the unknown-op diagnostic, which echoes the raw line;
since every other branch depends only on the op and the split arguments,
that last branch is returned as `none` here and materialized by the
caller, which holds the line.  An arity check on `none` arguments models
Python's `len(None)` TypeError. -/
def dispatch (path : String) (lno : Nat) (st : PState) (op : String)
    (args : Option (List String)) : Option (Except ParseErr PState) :=
  if op = "include" then some <|
    match args with
    | none => .error .pyTypeError
    | some as1 =>
        if as1.length ≠ 1 then
          .error (.atLine path lno ("Expected one argument to 'include': " ++ pyListRepr as1))
        else
          .ok { st with prog :=
            { st.prog with includes := st.prog.includes ++ [stripQuotes (as1.headD "")] } }
  else if op = "module" then some <|
    match args with
    | none => .error .pyTypeError
    | some as1 =>
        if as1.length ≠ 1 then
          .error (.atLine path lno ("Expected one argument to 'module': " ++ pyListRepr as1))
        else
          .ok { st with prog :=
            { st.prog with modules := st.prog.modules ++ [stripQuotes (as1.headD "")] } }
  else if op = "evqueue" then some <|
    match args with
    | none => .error .pyTypeError
    | some as1 =>
        if as1.length ≠ 1 ∧ as1.length ≠ 2 then
          .error (.atLine path lno
            ("Expected one or two arguments to 'evqueue': " ++ pyListRepr as1))
        else
          .ok { st with prog :=
            { st.prog with queues := st.prog.queues ++
              [{ name := as1.headD "",
                 phase := if as1.length > 1 then some (as1.getD 1 "") else none }] } }
  else if op = "event" then some <|
    match args with
    | none => .error .pyTypeError
    | some as1 =>
        if as1.length ≠ 1 then
          .error (.atLine path lno ("Expected one argument to 'event': " ++ pyListRepr as1))
        else
          match addEventTo st.prog (as1.headD "") with
          | none => .error .pyIndexError
          | some p2 => .ok { st with prog := p2 }
  else if op = "phase" then some <|
    match args with
    | none => .error .pyTypeError
    | some as1 =>
        if as1.length ≠ 1 then
          .error (.atLine path lno ("Expected one argument to 'phase': " ++ pyListRepr as1))
        else .ok { st with prog := { st.prog with phases := st.prog.phases ++ [as1.headD ""] } }
  else if op = "irq" then some <|
    match args with
    | none => .error .pyTypeError
    | some as1 =>
        if as1.length ≠ 3 then
          .error (.atLine path lno ("Expected three arguments to 'irq': " ++ pyListRepr as1))
        else if !(as1.headD "").startsWith "irq_" then
          .error (.atLine path lno
            ("Phase names used for IRQ must start with 'irq_': " ++ as1.headD ""))
        else
          .ok { st with prog :=
            { st.prog with irqs := st.prog.irqs ++
              [{ phase := as1.headD "", flagfile := as1.getD 1 "", flagbit := as1.getD 2 "" }] } }
  else if op = "wake" then some <|
    let st2 := { st with prog := { st.prog with sleepable := true } }
    match args with
    | none => .error .pyTypeError
    | some as1 =>
        if as1.length = 1 ∧ as1.headD "" = "always" then .ok { st2 with wakealways := true }
        else if as1.length = 2 then
          .ok { st2 with prog :=
            { st2.prog with wakesrcs := st2.prog.wakesrcs ++
              [{ enfile := as1.headD "", enbit := as1.getD 1 "" }] } }
        else .error (.atLine path lno ("Expected two arguments to 'wake': " ++ pyListRepr as1))
  else if op = "const" then some <|
    match args with
    | none => .error .pyTypeError
    | some as1 =>
        if as1.length ≠ 2 then
          .error (.atLine path lno ("Expected two arguments to 'const': " ++ pyListRepr as1))
        else
          match constLookup (as1.getD 1 "") with
          | none => .error (.pyKeyError (as1.getD 1 ""))
          | some pr =>
              .ok { st with prog :=
                { st.prog with consts := st.prog.consts ++
                  [{ name := as1.headD "", op := pr.1, init := pr.2 }] } }
  else if op = "dios" then some (.ok { st with dios := true })
  else none

/-- Materialize the dispatch result: the `none` of an unknown op becomes
the diagnostic of diosgen.py:193, which echoes the raw line. -/
def materialize (path : String) (lno : Nat) (l : SrcLine) :
    Option (Except ParseErr PState) → Except ParseErr PState
  | some r => r
  | none => .error (.unknownOp path lno l)

/-- Processing of one matched line (diosgen.py:131-141): a line with no
op is skipped (this covers blank, comment-only and label-only lines);
otherwise the raw arguments are split (a splitargs failure is re-raised
with the path:line prefix) and the op dispatched.  The SrcLine itself is
passed through only for the unknown-op diagnostic. -/
def parseOpCore (path : String) (lno : Nat) (st : PState) (op? args? : Option String)
    (l : SrcLine) : Except ParseErr PState :=
  match op? with
  | none => .ok st
  | some op =>
      match args? with
      | none => materialize path lno l (dispatch path lno st op none)
      | some raw =>
          match splitargs raw with
          | .error m => .error (.atLine path lno m)
          | .ok as1 => materialize path lno l (dispatch path lno st op (some as1))

/-- One iteration of the parse_lines loop on one source line. -/
def parseOp (path : String) (lno : Nat) (st : PState) (l : SrcLine) : Except ParseErr PState :=
  parseOpCore path lno st l.op l.args l

/-- The parse_lines line loop (diosgen.py:121-193), threading the line
counter; returns the final state and the last line number. -/
def parseLinesGo (path : String) : PState → Nat → List SrcLine → Except ParseErr (PState × Nat)
  | st, lno, [] => .ok (st, lno)
  | st, lno, l :: rest =>
      match parseOp path (lno + 1) st l with
      | .error e => .error e
      | .ok st2 => parseLinesGo path st2 (lno + 1) rest

/-- The phase-name universe of the post-parse checks (diosgen.py:198):
None, the four built-ins, the declared user phases and the IRQ phases
(the Python set is modelled as this list; only membership matters). -/
def allPhasesOf (p : ProgramDef) : List (Option String) :=
  [none, some "init", some "idle", some "irq", some "sleep"] ++
  p.phases.map some ++ p.irqs.map (fun i => some i.phase)

/-- The unknown-phase check (diosgen.py:199-201): the first queue whose
phase is outside the universe yields the (unprefixed) diagnostic. -/
def checkPhases (p : ProgramDef) : Option ParseErr :=
  match p.queues.find? (fun q => !decide (q.phase ∈ allPhasesOf p)) with
  | some q => some (.unknownPhase q.name q.phase)
  | none => none

/-- Lookup in the seen_events dict, modelled as an association list from
event name to the name of the queue that first contributed it. -/
def seenFind : List (String × String) → String → Option String
  | [], _ => none
  | (k, v) :: rest, e => if k = e then some v else seenFind rest e

/-- The inner loop of the duplicate-event check (diosgen.py:208-211):
scan one queue's events against seen_events, failing on a hit. -/
def dupScanEvents (ph : Option String) (qname : String) :
    List (String × String) → List String → Except ParseErr (List (String × String))
  | seen, [] => .ok seen
  | seen, e :: es =>
      match seenFind seen e with
      | some q1 => .error (.dupEvent q1 qname ph e)
      | none => dupScanEvents ph qname ((e, qname) :: seen) es

/-- The queue loop of the duplicate-event check (diosgen.py:206-211):
queues with no phase, or a phase other than the current one, are
skipped (`if not queuedef.phase or queuedef.phase != phase`). -/
def dupScanQueues (ph : Option String) :
    List (String × String) → List QueueDef → Except ParseErr (List (String × String))
  | seen, [] => .ok seen
  | seen, q :: qs =>
      if q.phase = none ∨ q.phase ≠ ph then dupScanQueues ph seen qs
      else
        match dupScanEvents ph q.name seen q.events with
        | .error e => .error e
        | .ok seen2 => dupScanQueues ph seen2 qs

/-- The phase loop of the duplicate-event check (diosgen.py:204-211). -/
def dupCheckPhases (p : ProgramDef) : List (Option String) → Option ParseErr
  | [] => none
  | ph :: rest =>
      match dupScanQueues ph [] p.queues with
      | .error e => some e
      | .ok _ => dupCheckPhases p rest

/-- Embeds parse_lines (diosgen.py:116-216): run the line loop, then in
order the dios-marker check, the unknown-phase check, the
duplicate-event check and the wake-conflict check. -/
def parse_lines (ls : List SrcLine) (path : String) : Except ParseErr ProgramDef :=
  match parseLinesGo path { prog := { srcname := path } } 0 ls with
  | .error e => .error e
  | .ok (st, lno) =>
      if !st.dios then .error (.atLine path lno "No 'dios' marker found in file")
      else
        match checkPhases st.prog with
        | some e => .error e
        | none =>
            match dupCheckPhases st.prog (allPhasesOf st.prog) with
            | some e => .error e
            | none =>
                if st.wakealways && !st.prog.wakesrcs.isEmpty then
                  .error (.atLine path lno
                    ("Both 'wake always' and " ++ toString st.prog.wakesrcs.length ++
                     " explicit source(s) specified"))
                else .ok st.prog

/-- A line with an op and no label, arguments or comment. -/
def lnOp (o : String) : SrcLine := { op := some o }

/-- A line with an op and raw argument text. -/
def lnOpArgs (o a : String) : SrcLine := { op := some o, args := some a }

/-- Two unassigned queues sharing event e. -/
def demoUnassignedShared : List SrcLine :=
  [lnOp "dios", lnOpArgs "evqueue" "a", lnOpArgs "event" "e",
   lnOpArgs "evqueue" "b", lnOpArgs "event" "e"]

/-- One idle-phase queue listing event e twice. -/
def demoSingleQueueDup : List SrcLine :=
  [lnOp "dios", lnOpArgs "evqueue" "a, idle", lnOpArgs "event" "e", lnOpArgs "event" "e"]

/-- A queue naming an undeclared phase. -/
def demoUnknownPhase : List SrcLine :=
  [lnOp "dios", lnOpArgs "evqueue" "a, nosuch"]

/-- An unknown op carrying a label. -/
def lnBogusLabeled : SrcLine := { lbl := some "lab", op := some "frobnicate" }

/-- The same unknown op without the label. -/
def lnBogusPlain : SrcLine := { op := some "frobnicate" }

/-- A 2-event (tiny, at most 8 events) queue owned by phase idle. -/
def qSmall : QueueDef := { name := "A", events := ["e0", "e1"], phase := some "idle" }

/-- A 9-event queue (9..16 class) owned by phase idle. -/
def qMid : QueueDef :=
  { name := "M", events := (List.range 9).map (fun i => "m" ++ toString i),
    phase := some "idle" }

/-- A 17-event (large) queue owned by phase idle. -/
def qBig : QueueDef :=
  { name := "B", events := (List.range 17).map (fun i => "b" ++ toString i),
    phase := some "idle" }

end Dios

/-- C2: the queue-has-work macro diosqsc_<queue> is claimed to skip the
following instruction exactly when the queue has no event posted, with
the same skip-if-empty polarity in all three size classes.  Running the
embedded expansions: the large queue does skip when state bit 0 is clear
and not when it is set, but both small shapes end in `btfsc STATUS, Z`,
which skips when Z is clear, i.e. when the bitmap is NON-empty — on an
empty 2-event queue the next instruction is executed, and on the same
queue with an event posted it is skipped; likewise for the 9-event
OR-loop shape.  The polarity of the small shapes is inverted relative to
the claim (and to the source's own comment "Skip if queue has no event
posted"). -/
theorem c2_qsc_polarity :
    Dios.qscSkips Dios.stdBits Dios.qSmall (Dios.machOf []) = false ∧
    Dios.qscSkips Dios.stdBits Dios.qSmall (Dios.machOf [("dios_q_A", 2)]) = true ∧
    (Dios.machOf []).regs (Dios.qmapName Dios.qSmall) = 0 ∧
    Dios.qscSkips Dios.stdBits Dios.qMid (Dios.machOf []) = false ∧
    Dios.qscSkips Dios.stdBits Dios.qMid (Dios.machOf [("dios_q_M + 1", 1)]) = true ∧
    Dios.qscSkips Dios.stdBits Dios.qBig (Dios.machOf []) = true ∧
    Dios.qscSkips Dios.stdBits Dios.qBig (Dios.machOf [("dios_qstate_B", 1)]) = false := by
  decide

namespace Dios

/-- A sleepable program with one explicit wake source and one small
queue owned by phase idle, used to evaluate the emitted sleep gate. -/
def progSleep : ProgramDef :=
  { srcname := "-",
    queues := [{ name := "q", events := ["a", "b"], phase := some "idle" }],
    wakesrcs := [{ enfile := "PIE1", enbit := "TMR1IE" }],
    sleepable := true }

/-- Machine state for the sleep-gate evaluation: the wake source enable
bit is set (PIE1 bit 0, since stdBits resolves TMR1IE to 0), INTCON.GIE
is set (bit 7), and the idle queue has an event posted (bitmap byte
dios_q_q = 1). -/
def machSleep : Mach := machOf [("PIE1", 1), ("INTCON", 128), ("dios_q_q", 1)]

end Dios

/-- C3: the emitted sleep gate is claimed to let the sleep phase run only
when some wake source is enabled AND global interrupts are enabled AND no
idle-phase queue has work pending.  Evaluating the embedded gate on a
program with one enabled wake source, GIE set, and an event POSTED in its
idle queue: because the inverted diosqsc polarity (C2) skips the `bcf
STATUS, C` exactly when the queue is non-empty, C stays set and the gate
falls through into the sleep phase — the program sleeps with mainline
work outstanding, which the claim forbids. -/
theorem c3_sleep_gate_inverted :
    Dios.sleepRuns Dios.stdBits Dios.progSleep Dios.machSleep = true ∧
    Dios.machSleep.regs "dios_q_q" ≠ 0 ∧
    Dios.machSleep.regs "INTCON" = 128 ∧
    (Dios.progSleep.queues.filter (fun q => q.phase = some "idle")).length = 1 := by
  decide


/-- C1: For every queue of N events (reserving ceil(N/8) bitmap bytes) and
every event at position j, the post macro invoked with the generated bit
constant (queue ordinal shifted left by 8, plus j) is claimed to set bit
`j % 8` of bitmap byte `j / 8`.  Evaluating the embedded operand
arithmetic at queue ordinal 0, position j = 1 (a 2-event queue reserving
one bitmap byte, byte index 0 expected): the emitted macro computes byte
index `((1)+7)/8 = 1`, one past the reserved bitmap, while the drain
handler serves the event in byte `1/8 = 0`; for queue ordinal 1 the
`1 << 8` tag even leaks into the byte index (32).  The bit position and
the reservation count do match the claim. -/
theorem c1_post_macro_byte_index :
    Dios.bitmapBytes 2 = 1 ∧
    Dios.eventBitConst 0 1 = 1 ∧
    Dios.postByteIndex (Dios.eventBitConst 0 1) = 1 ∧
    Dios.drainByteIndex 1 = 0 ∧
    Dios.postByteIndex (Dios.eventBitConst 0 1) ≠ Dios.drainByteIndex 1 ∧
    Dios.postBitIndex (Dios.eventBitConst 0 1) = Dios.drainBitIndex 1 ∧
    Dios.postByteIndex (Dios.eventBitConst 1 0) = 32 := by
  decide

namespace Dios

/-- A program whose phase idle is shared by the large queue qBig and a
one-event sibling, so qBig's handler is generated in priority mode. -/
def progLargePrio : ProgramDef :=
  { srcname := "-",
    queues := [qBig, { name := "SIB", events := ["x"], phase := some "idle" }] }

/-- A tiny queue sharing phase p with the large queue qShareBig. -/
def qShareTiny : QueueDef := { name := "TA", events := ["t0", "t1"], phase := some "p" }

/-- A large queue sharing phase p with qShareTiny. -/
def qShareBig : QueueDef :=
  { name := "TB", events := (List.range 17).map (fun i => "u" ++ toString i),
    phase := some "p" }

/-- The two-queue phase-p program for the C6 evaluation. -/
def progShare : ProgramDef := { srcname := "-", queues := [qShareTiny, qShareBig] }

/-- A queue alone in its phase q. -/
def qAlone : QueueDef := { name := "TC", events := ["v0", "v1"], phase := some "q" }

/-- The single-queue program for the C6 evaluation. -/
def progAlone : ProgramDef := { srcname := "-", queues := [qAlone] }

/-- A two-module program used to witness the weaver refinement. -/
def progTwoMods : ProgramDef := { srcname := "-", modules := ["a.inc", "b.inc"] }

end Dios

/-- C4: for a large queue whose owning phase is shared (priority mode),
the generator is claimed to emit a drain handler (skip on state bit 0
clear, else clear bit 0 and set state bit 1) and in particular to
succeed.  Evaluating the embedded generate_queue_handler on a 17-event
queue sharing phase idle with a sibling: the function reaches the
priority-mode banksel whose f-string reads the unassigned loop index i
(diosgen.py:319) and generation fails with UnboundLocalError instead of
returning output text. -/
theorem c4_large_priority_crash :
    Dios.qBig.is_large = true ∧
    Dios.progLargePrio.phase_has_priorities Dios.qBig.phase = true ∧
    Dios.generate_queue_handler Dios.qBig Dios.progLargePrio "phase_idle" =
      Except.error Dios.unboundLocalMsg :=
  ⟨by decide, by decide, rfl⟩

/-- C6: for a queue sharing its phase, the drain handler is claimed to end
with a branch back to the phase start that is conditional on state bit 1
for non-large queues and unconditional for large queues, and to have no
such branch for a queue alone in its phase.  Evaluating the embedding:
the non-large shared queue's handler does end with the conditional
branch-back block, and the lone queue's handler contains no branch to its
start label; but for the LARGE shared queue generate_queue_handler
crashes with UnboundLocalError (diosgen.py:319), so no handler with an
unconditional branch is ever emitted. -/
theorem c6_branch_back :
    Dios.generate_queue_handler Dios.qShareBig Dios.progShare "phase_p" =
      Except.error Dios.unboundLocalMsg ∧
    (["\tpagesel\tphase_p",
      "\tbanksel\tdios_qstate_TA",
      "\tbtfsc\tdios_qstate_TA, 1",
      "\tgoto\tphase_p"].isSuffixOf (Dios.handlerMain Dios.qShareTiny Dios.progShare "phase_p"))
      = true ∧
    "\tgoto\tphase_q" ∉ Dios.handlerMain Dios.qAlone Dios.progAlone "phase_q" :=
  ⟨rfl, by decide, by decide⟩

/-- C8 counterexample: the claim quantifies over every Program, but for a
program with no modules generate_modules emits nothing at all
(diosgen.py:219 returns early), not the claimed define/undefine
bracketing. -/
theorem c8_counterexample :
    Dios.generate_modules "x" { srcname := "-" } true true = [] ∧
    Dios.generate_modules "x" { srcname := "-" } true true ≠
      Dios.weaverMainPassSpec "x" [] ++ Dios.weaverPostPassSpec "x" [] := by
  decide

/-- C8 (amended to programs with at least one module): the module
weaver's main pass emits a definition of diosh_A, one include per module
in declaration order, and an undefinition; the post pass the same with
diosph_A in reverse declaration order; each pass is elided independently
by the caller's flags. -/
theorem c8_weaver_refines_spec (aspect : String) (p : Dios.ProgramDef) (main post : Bool)
    (h : p.modules ≠ []) :
    Dios.generate_modules aspect p main post =
      (if main then Dios.weaverMainPassSpec aspect p.modules else []) ++
      (if post then Dios.weaverPostPassSpec aspect p.modules else []) := by
  have hne : p.modules.isEmpty = false := by
    cases hm : p.modules with
    | nil => exact absurd hm h
    | cons a l => rfl
  simp only [Dios.generate_modules, Dios.weaverMainPassSpec, Dios.weaverPostPassSpec, hne,
    Bool.false_eq_true, if_false]

/-- C8 witness: the refinement applied to a concrete two-module program
with the post pass elided. -/
theorem c8_witness :
    Dios.progTwoMods.modules ≠ [] ∧
    Dios.generate_modules "idle" Dios.progTwoMods true false =
      (if true then Dios.weaverMainPassSpec "idle" Dios.progTwoMods.modules else []) ++
      (if false then Dios.weaverPostPassSpec "idle" Dios.progTwoMods.modules else []) :=
  ⟨by decide, c8_weaver_refines_spec "idle" Dios.progTwoMods true false (by decide)⟩

namespace Dios

/-! ## The diospost dispatcher macro (generate_main, diosgen.py:486-495) -/

/-- ASCII lowercase of a character, embedding Python str.lower on the
identifier characters queue names consist of. -/
def lowerChar (c : Char) : Char :=
  if 'A' ≤ c ∧ c ≤ 'Z' then Char.ofNat (c.toNat + 32) else c

/-- ASCII lowercase of a string (Python str.lower on identifiers). -/
def lowerStr (s : String) : String := String.mk (s.toList.map lowerChar)

/-- One emitted diospost_<queue> invocation line (diosgen.py:493). -/
def postInvocation (q : QueueDef) (e : String) : String :=
  "\tdiospost_" ++ lowerStr q.name ++ "\t" ++ q.name ++ "_" ++ e

/-- The lines guarded by `if event == e` in the dispatcher: one
invocation per queue whose event list contains e, in queue declaration
order (diosgen.py:491-493 iterates the queues and skips those not
containing the event). -/
def dispatchBody (p : ProgramDef) (e : String) : List String :=
  (p.queues.filter (fun q => decide (e ∈ q.events))).map (fun q => postInvocation q e)

/-- The full emitted dispatcher macro (diosgen.py:486-495): for each
program event in insertion order, an `if event == <e>` guard around that
event's body, closed by endif; nothing is emitted for an event-less
program. -/
def diospostDispatchLines (p : ProgramDef) : List String :=
  if p.events.isEmpty then [] else
    ["diospost\tmacro\tevent"] ++
    p.events.flatMap
      (fun e => ["\tif\tevent == " ++ e] ++ dispatchBody p e ++ ["\tendif"]) ++
    ["\tendm"]

/-- The value of an event-name constant: generate_consts (diosgen.py:238)
places the events in a cblock starting at 0 in insertion order, so the
constant equals the insertion index. -/
def eventIndex (p : ProgramDef) (e : String) : Nat := p.events.indexOf e

/-- The assembler's expansion of a `diospost ev` invocation: each
`if event == e` guard compares the two event constants, so the body of
entry e survives exactly when the constants coincide. -/
def expandDiospost (p : ProgramDef) (ev : String) : List String :=
  p.events.flatMap
    (fun e => if eventIndex p e = eventIndex p ev then dispatchBody p e else [])

/-- flatMap of a guarded body over a duplicate-free list in which
exactly the element ev satisfies the guard yields just ev's body. -/
theorem flatMap_guard_single {α β : Type} (g : α → List β) (P : α → Prop)
    [DecidablePred P] :
    ∀ (l : List α) (ev : α), (∀ e ∈ l, P e ↔ e = ev) → l.Nodup → ev ∈ l →
      (l.flatMap fun e => if P e then g e else []) = g ev := by
  intro l
  induction l with
  | nil => intro ev _ _ hmem; cases hmem
  | cons a t ih =>
      intro ev hiff hnd hmem
      have hna : a ∉ t := (List.nodup_cons.mp hnd).1
      have hndt : t.Nodup := (List.nodup_cons.mp hnd).2
      rcases List.mem_cons.mp hmem with hae | het
      · have hPa : P a := (hiff a (List.mem_cons_self a t)).mpr hae.symm
        have hrest : (t.flatMap fun e => if P e then g e else []) = [] := by
          apply List.flatMap_eq_nil_iff.mpr
          intro e he
          have : ¬P e := fun hPe => by
            have hev2 : e = ev := (hiff e (List.mem_cons_of_mem a he)).mp hPe
            have hat : a ∈ t := by rw [← hae, ← hev2]; exact he
            exact hna hat
          simp [this]
        simp [List.flatMap_cons, if_pos hPa, hrest, hae]
      · have hnPa : ¬P a := fun hPa => by
          have hav : a = ev := (hiff a (List.mem_cons_self a t)).mp hPa
          have hat : a ∈ t := by rw [hav]; exact het
          exact hna hat
        have := ih ev (fun e he => hiff e (List.mem_cons_of_mem a he)) hndt het
        simp [List.flatMap_cons, if_neg hnPa, this]

end Dios

/-- C9: for every program and event ev in its event map, the emitted
diospost dispatcher, invoked with ev's event constant, expands to one
diospost_<queue> invocation for every queue whose event list contains
ev, in queue declaration order.  The event constants are the insertion
indices, which are pairwise distinct because the event map is keyed by
name (embedded as the Nodup hypothesis), so exactly ev's `if event == e`
guard survives. -/
theorem c9_dispatch_complete (p : Dios.ProgramDef) (ev : String)
    (hev : ev ∈ p.events) (hnd : p.events.Nodup) :
    Dios.expandDiospost p ev =
      (p.queues.filter (fun q => decide (ev ∈ q.events))).map
        (fun q => Dios.postInvocation q ev) := by
  have hiff : ∀ e ∈ p.events, (Dios.eventIndex p e = Dios.eventIndex p ev ↔ e = ev) := by
    intro e he
    exact List.indexOf_inj he hev
  calc Dios.expandDiospost p ev
      = Dios.dispatchBody p ev :=
        Dios.flatMap_guard_single (Dios.dispatchBody p)
          (fun e => Dios.eventIndex p e = Dios.eventIndex p ev) p.events ev hiff hnd hev
    _ = _ := rfl

namespace Dios

/-- A program whose event a is shared by two queues owned by different
phases, used to witness the dispatcher expansion. -/
def progDispatch : ProgramDef :=
  { srcname := "-", events := ["a", "b"],
    queues := [{ name := "Q1", events := ["a"], phase := some "idle" },
               { name := "Q2", events := ["a", "b"], phase := some "other" }] }

end Dios

/-- C9 witness: the dispatcher expansion evaluated on a concrete program
in which event a lives in two queues of different phases; a single
diospost posts to both, in declaration order. -/
theorem c9_dispatch_complete_witness :
    "a" ∈ Dios.progDispatch.events ∧ Dios.progDispatch.events.Nodup ∧
    Dios.expandDiospost Dios.progDispatch "a" =
      ["\tdiospost_q1\tQ1_a", "\tdiospost_q2\tQ2_a"] :=
  ⟨by decide, by decide,
   (c9_dispatch_complete Dios.progDispatch "a" (by decide) (by decide)).trans (by decide)⟩

/-- C5 counterexample: the claim says parsing fails whenever one event
name appears in two queues sharing an owning phase, with the unassigned
bucket treated as its own phase key, and conversely does not fail when no
two same-phase queues share an event.  Both directions fail on the code:
two UNASSIGNED queues sharing event e parse successfully (the check at
diosgen.py:207 explicitly skips queues with no phase), while a single
idle-phase queue listing event e twice — no two queues sharing anything —
fails on this very check (the seen_events dict accumulates within one
queue as well). -/
theorem c5_counterexample :
    Dios.parse_lines Dios.demoUnassignedShared "-" =
      Except.ok { srcname := "-", events := ["e"],
                  queues := [{ name := "a", events := ["e"] },
                             { name := "b", events := ["e"] }] } ∧
    Dios.parse_lines Dios.demoSingleQueueDup "-" =
      Except.error (Dios.ParseErr.dupEvent "a" "a" (some "idle") "e") :=
  ⟨rfl, rfl⟩

/-- C7: every parser or validation failure is claimed to be surfaced as a
diagnostic beginning with `<path>:<line>`.  Evaluating the embedded
parse_lines on a queue that names an undeclared phase: the failure is the
raise at diosgen.py:201, whose message "Unknown phase requested for
evqueue a: nosuch" carries no path:line prefix (its first two characters
are not "-:" for source path "-"), unlike every raise inside the line
loop.  (The same holds for the duplicate-event raise at diosgen.py:210,
and the event-with-no-queue and missing-argument failures surface as
IndexError/TypeError crashes rather than diagnostics.) -/
theorem c7_unprefixed_diagnostic :
    Dios.parse_lines Dios.demoUnknownPhase "-" =
      Except.error (Dios.ParseErr.unknownPhase "a" (some "nosuch")) ∧
    (Dios.ParseErr.unknownPhase "a" (some "nosuch")).render =
      "Unknown phase requested for evqueue a: nosuch" ∧
    (Dios.ParseErr.unknownPhase "a" (some "nosuch")).render.toList.take 2 ≠ ['-', ':'] :=
  ⟨rfl, rfl, by decide⟩

/-- C10 counterexample: parse_lines applied to two one-line inputs that
differ only in the presence of a leading label does NOT produce equal
results when it fails: the unknown-op failure (diosgen.py:193) echoes the
raw line, label included, so the two failures differ. -/
theorem c10_counterexample :
    Dios.parse_lines [Dios.lnBogusLabeled] "-" =
      Except.error (Dios.ParseErr.unknownOp "-" 1 Dios.lnBogusLabeled) ∧
    Dios.parse_lines [Dios.lnBogusPlain] "-" =
      Except.error (Dios.ParseErr.unknownOp "-" 1 Dios.lnBogusPlain) ∧
    Dios.parse_lines [Dios.lnBogusLabeled] "-" ≠ Dios.parse_lines [Dios.lnBogusPlain] "-" := by
  refine ⟨rfl, rfl, ?_⟩
  intro h
  rw [show Dios.parse_lines [Dios.lnBogusLabeled] "-" =
        Except.error (Dios.ParseErr.unknownOp "-" 1 Dios.lnBogusLabeled) from rfl,
      show Dios.parse_lines [Dios.lnBogusPlain] "-" =
        Except.error (Dios.ParseErr.unknownOp "-" 1 Dios.lnBogusPlain) from rfl] at h
  exact absurd (Except.error.inj h) (by decide)

namespace Dios

/-- Two LINE_RE decompositions that agree on op and raw arguments (they
may differ in label and comment, which parse_lines never reads except to
echo the raw line in the unknown-op diagnostic). -/
def labelIndep (a b : SrcLine) : Prop := a.op = b.op ∧ a.args = b.args

/-- The model produced by a parse: the Program on success, none on any
failure. -/
def parseResult (r : Except ParseErr ProgramDef) : Option ProgramDef :=
  match r with
  | .ok p => some p
  | .error _ => none

/-- Two line-step results that are the same successful state, or are both
failures (possibly with different diagnostics). -/
def SameOutcome (x y : Except ParseErr PState) : Prop :=
  (∃ st, x = .ok st ∧ y = .ok st) ∨ ((∃ e, x = .error e) ∧ (∃ e, y = .error e))

/-- Every result has the same outcome as itself. -/
theorem sameOutcome_refl (x : Except ParseErr PState) : SameOutcome x x := by
  cases x with
  | ok st => exact Or.inl ⟨st, rfl, rfl⟩
  | error e => exact Or.inr ⟨⟨e, rfl⟩, ⟨e, rfl⟩⟩

/-- The SrcLine is consulted only when materializing an unknown op, so
two materializations of the same dispatch result have the same
outcome. -/
theorem materialize_line_indep (path : String) (lno : Nat) (l1 l2 : SrcLine)
    (d : Option (Except ParseErr PState)) :
    SameOutcome (materialize path lno l1 d) (materialize path lno l2 d) := by
  cases d with
  | some r => exact sameOutcome_refl r
  | none => exact Or.inr ⟨⟨_, rfl⟩, ⟨_, rfl⟩⟩

/-- The per-line step depends on the line only through its op and raw
arguments, up to the payload of a failure. -/
theorem parseOpCore_line_indep (path : String) (lno : Nat) (st : PState)
    (op? args? : Option String) (l1 l2 : SrcLine) :
    SameOutcome (parseOpCore path lno st op? args? l1)
      (parseOpCore path lno st op? args? l2) := by
  cases op? with
  | none => exact sameOutcome_refl _
  | some op =>
      cases args? with
      | none => exact materialize_line_indep path lno l1 l2 (dispatch path lno st op none)
      | some raw =>
          simp only [parseOpCore]
          rcases hsp : splitargs raw with m | as1
          · exact sameOutcome_refl _
          · exact materialize_line_indep path lno l1 l2 (dispatch path lno st op (some as1))

/-- Label independence of one parse step. -/
theorem parseOp_line_indep (path : String) (lno : Nat) (st : PState) {l1 l2 : SrcLine}
    (h : labelIndep l1 l2) :
    SameOutcome (parseOp path lno st l1) (parseOp path lno st l2) := by
  unfold parseOp
  rw [h.1, h.2]
  exact parseOpCore_line_indep path lno st l2.op l2.args l1 l2

/-- Same-outcome relation for the loop results. -/
def SameOutcome2 (x y : Except ParseErr (PState × Nat)) : Prop :=
  (∃ st, x = .ok st ∧ y = .ok st) ∨ ((∃ e, x = .error e) ∧ (∃ e, y = .error e))

/-- Every loop result has the same outcome as itself. -/
theorem sameOutcome2_refl (x : Except ParseErr (PState × Nat)) : SameOutcome2 x x := by
  cases x with
  | ok st => exact Or.inl ⟨st, rfl, rfl⟩
  | error e => exact Or.inr ⟨⟨e, rfl⟩, ⟨e, rfl⟩⟩

/-- Label independence of the whole line loop. -/
theorem parseLinesGo_line_indep (path : String) :
    ∀ {ls1 ls2 : List SrcLine}, List.Forall₂ labelIndep ls1 ls2 → ∀ (st : PState) (lno : Nat),
      SameOutcome2 (parseLinesGo path st lno ls1) (parseLinesGo path st lno ls2) := by
  intro ls1 ls2 h
  induction h with
  | nil => intro st lno; exact sameOutcome2_refl _
  | cons hab htail ih =>
      intro st lno
      rcases parseOp_line_indep path (lno + 1) st hab with ⟨st2, hx, hy⟩ | ⟨⟨e1, hx⟩, ⟨e2, hy⟩⟩
      · simp only [parseLinesGo, hx, hy]
        exact ih st2 (lno + 1)
      · simp only [parseLinesGo, hx, hy]
        exact Or.inr ⟨⟨e1, rfl⟩, ⟨e2, rfl⟩⟩

/-- A line that carries both a label and the dios op. -/
def lnDiosLabeled : SrcLine := { lbl := some "L", op := some "dios" }

end Dios

/-- C10 (amended): for two inputs that differ only in the labels (and
comments) carried by their lines, parse_lines produces the same model:
equal Programs when it succeeds, and failure on both when it fails —
though the failure diagnostics may differ in the raw line echoed by the
unknown-op message (see the counterexample). -/
theorem c10_label_independence (path : String) (ls1 ls2 : List Dios.SrcLine)
    (h : List.Forall₂ Dios.labelIndep ls1 ls2) :
    Dios.parseResult (Dios.parse_lines ls1 path) =
      Dios.parseResult (Dios.parse_lines ls2 path) := by
  rcases Dios.parseLinesGo_line_indep path h { prog := { srcname := path } } 0 with
    ⟨stl, hx, hy⟩ | ⟨⟨e1, hx⟩, ⟨e2, hy⟩⟩
  · unfold Dios.parse_lines
    rw [hx, hy]
  · unfold Dios.parse_lines
    rw [hx, hy]
    rfl

/-- C10 witness: the label-independence theorem applied to a labelled and
an unlabelled dios line. -/
theorem c10_label_independence_witness :
    Dios.parseResult (Dios.parse_lines [Dios.lnDiosLabeled] "-") =
      Dios.parseResult (Dios.parse_lines [Dios.lnOp "dios"] "-") :=
  c10_label_independence "-" [Dios.lnDiosLabeled] [Dios.lnOp "dios"]
    (List.Forall₂.cons ⟨rfl, rfl⟩ List.Forall₂.nil)

namespace Dios

/-- The event names recorded in the seen_events dict. -/
def seenKeys (seen : List (String × String)) : List String := seen.map Prod.fst

/-- Whether a scan succeeded. -/
def scanOk {α : Type} : Except ParseErr α → Bool
  | .ok _ => true
  | .error _ => false

/-- The concatenated event lists of the queues owned by phase ph, in
declaration order: what one phase iteration of the duplicate-event check
effectively scans. -/
def phaseEvents (ph : Option String) (qs : List QueueDef) : List String :=
  (qs.filter (fun q => q.phase = ph)).flatMap (fun q => q.events)

/-- seenFind misses exactly the names outside the recorded keys. -/
theorem seenFind_eq_none (seen : List (String × String)) (e : String) :
    seenFind seen e = none ↔ e ∉ seenKeys seen := by
  induction seen with
  | nil => simp [seenFind, seenKeys]
  | cons kv rest ih =>
      obtain ⟨k, v⟩ := kv
      by_cases hk : k = e
      · subst hk
        simp [seenFind, seenKeys]
      · simp [seenFind, seenKeys, hk, Ne.symm hk, ih]

/-- A successful event scan extends the recorded keys by exactly the
scanned names. -/
theorem dupScanEvents_keys (ph : Option String) (qn : String) :
    ∀ (es : List String) (seen s2 : List (String × String)),
      dupScanEvents ph qn seen es = .ok s2 →
      ∀ x, x ∈ seenKeys s2 ↔ x ∈ es ∨ x ∈ seenKeys seen := by
  intro es
  induction es with
  | nil =>
      intro seen s2 h x
      simp only [dupScanEvents] at h
      injection h with h2
      subst h2
      simp
  | cons e es ih =>
      intro seen s2 h x
      simp only [dupScanEvents] at h
      rcases hf : seenFind seen e with _ | q1
      · rw [hf] at h
        have hrec := ih ((e, qn) :: seen) s2 h x
        rw [hrec]
        simp only [seenKeys, List.map_cons, List.mem_cons]
        tauto
      · rw [hf] at h
        simp at h

/-- The event scan succeeds exactly when the scanned names are pairwise
distinct and none of them was already recorded. -/
theorem dupScanEvents_ok_iff (ph : Option String) (qn : String) :
    ∀ (es : List String) (seen : List (String × String)),
      scanOk (dupScanEvents ph qn seen es) = true ↔
        (es.Nodup ∧ ∀ e ∈ es, e ∉ seenKeys seen) := by
  intro es
  induction es with
  | nil => intro seen; simp [dupScanEvents, scanOk]
  | cons e es ih =>
      intro seen
      simp only [dupScanEvents]
      rcases hf : seenFind seen e with _ | q1
      · have he : e ∉ seenKeys seen := (seenFind_eq_none seen e).mp hf
        have hkeys : seenKeys ((e, qn) :: seen) = e :: seenKeys seen := by simp [seenKeys]
        show scanOk (dupScanEvents ph qn ((e, qn) :: seen) es) = true ↔
          ((e :: es).Nodup ∧ ∀ x ∈ e :: es, x ∉ seenKeys seen)
        rw [ih ((e, qn) :: seen), hkeys]
        simp only [List.nodup_cons, List.mem_cons, not_or]
        constructor
        · rintro ⟨hnd, hall⟩
          refine ⟨⟨fun hmem => (hall e hmem).1 rfl, hnd⟩, ?_⟩
          rintro x (rfl | hx)
          · exact he
          · exact (hall x hx).2
        · rintro ⟨⟨hne, hnd⟩, hall⟩
          refine ⟨hnd, fun x hx => ⟨?_, hall x (Or.inr hx)⟩⟩
          intro hxe
          exact hne (hxe ▸ hx)
      · have he : e ∈ seenKeys seen := by
          by_contra hc
          rw [(seenFind_eq_none seen e).mpr hc] at hf
          cases hf
        apply iff_of_false
        · simp [scanOk]
        · rintro ⟨_, hall⟩
          exact (hall e (List.mem_cons_self e es)) he

/-- Queues not owned by ph contribute nothing to its phase events. -/
theorem phaseEvents_cons_skip {ph : Option String} {q : QueueDef} (qs : List QueueDef)
    (h : ¬q.phase = ph) : phaseEvents ph (q :: qs) = phaseEvents ph qs := by
  simp [phaseEvents, List.filter_cons, h]

/-- A queue owned by ph prepends its events to the phase events. -/
theorem phaseEvents_cons_keep {ph : Option String} {q : QueueDef} (qs : List QueueDef)
    (h : q.phase = ph) : phaseEvents ph (q :: qs) = q.events ++ phaseEvents ph qs := by
  simp [phaseEvents, List.filter_cons, h]

/-- A successful queue scan records exactly the phase's event names on
top of what was already recorded. -/
theorem dupScanQueues_keys (ph : Option String) (hph : ph ≠ none) :
    ∀ (qs : List QueueDef) (seen s2 : List (String × String)),
      dupScanQueues ph seen qs = .ok s2 →
      ∀ x, x ∈ seenKeys s2 ↔ x ∈ phaseEvents ph qs ∨ x ∈ seenKeys seen := by
  intro qs
  induction qs with
  | nil =>
      intro seen s2 h x
      simp only [dupScanQueues] at h
      injection h with h2
      subst h2
      simp [phaseEvents]
  | cons q qs ih =>
      intro seen s2 h x
      simp only [dupScanQueues] at h
      by_cases hc : (q.phase = none ∨ q.phase ≠ ph)
      · have hne : ¬q.phase = ph := by
          rcases hc with h0 | h0
          · intro he; rw [he] at h0; exact hph h0
          · exact h0
        rw [if_pos hc] at h
        rw [phaseEvents_cons_skip qs hne]
        exact ih seen s2 h x
      · have heq : q.phase = ph := not_not.mp (not_or.mp hc).2
        rw [if_neg hc] at h
        rcases hde : dupScanEvents ph q.name seen q.events with e0 | seen2
        · rw [hde] at h
          simp at h
        · rw [hde] at h
          rw [phaseEvents_cons_keep qs heq]
          rw [ih seen2 s2 h x, dupScanEvents_keys ph q.name q.events seen seen2 hde x]
          simp only [List.mem_append]
          tauto

/-- The queue scan for a non-None phase succeeds exactly when the
phase's concatenated event names are pairwise distinct and disjoint from
what was already recorded. -/
theorem dupScanQueues_ok_iff (ph : Option String) (hph : ph ≠ none) :
    ∀ (qs : List QueueDef) (seen : List (String × String)),
      scanOk (dupScanQueues ph seen qs) = true ↔
        ((phaseEvents ph qs).Nodup ∧ ∀ e ∈ phaseEvents ph qs, e ∉ seenKeys seen) := by
  intro qs
  induction qs with
  | nil => intro seen; simp [dupScanQueues, scanOk, phaseEvents]
  | cons q qs ih =>
      intro seen
      simp only [dupScanQueues]
      by_cases hc : (q.phase = none ∨ q.phase ≠ ph)
      · have hne : ¬q.phase = ph := by
          rcases hc with h0 | h0
          · intro he; rw [he] at h0; exact hph h0
          · exact h0
        rw [if_pos hc, phaseEvents_cons_skip qs hne]
        exact ih seen
      · have heq : q.phase = ph := not_not.mp (not_or.mp hc).2
        rw [if_neg hc, phaseEvents_cons_keep qs heq]
        rcases hde : dupScanEvents ph q.name seen q.events with e0 | seen2
        · apply iff_of_false
          · simp [scanOk]
          · rintro ⟨hnd, hall⟩
            have hgood : q.events.Nodup ∧ ∀ e ∈ q.events, e ∉ seenKeys seen := by
              refine ⟨(List.nodup_append.mp hnd).1, ?_⟩
              intro e he2
              exact hall e (List.mem_append_left _ he2)
            have := (dupScanEvents_ok_iff ph q.name q.events seen).mpr hgood
            rw [hde] at this
            simp [scanOk] at this
        · have hkeys := dupScanEvents_keys ph q.name q.events seen seen2 hde
          have hok := (dupScanEvents_ok_iff ph q.name q.events seen).mp (by rw [hde]; rfl)
          show scanOk (dupScanQueues ph seen2 qs) = true ↔
            ((q.events ++ phaseEvents ph qs).Nodup ∧
              ∀ e ∈ q.events ++ phaseEvents ph qs, e ∉ seenKeys seen)
          rw [ih seen2, List.nodup_append]
          constructor
          · rintro ⟨hnd2, hall2⟩
            refine ⟨⟨hok.1, hnd2, ?_⟩, ?_⟩
            · intro a ha hpe
              exact (hall2 a hpe) ((hkeys a).mpr (Or.inl ha))
            · intro e he
              rcases List.mem_append.mp he with h1 | h2
              · exact hok.2 e h1
              · intro hk
                exact (hall2 e h2) ((hkeys e).mpr (Or.inr hk))
          · rintro ⟨⟨hndq, hnd2, hdisj⟩, hall⟩
            refine ⟨hnd2, ?_⟩
            intro e he hk2
            rcases (hkeys e).mp hk2 with h1 | h2
            · exact hdisj h1 he
            · exact (hall e (List.mem_append_right _ he)) h2

/-- For the None phase key, every queue is skipped by the guard
`if not queuedef.phase or queuedef.phase != phase`, so the scan is a
no-op. -/
theorem dupScanQueues_none_phase :
    ∀ (qs : List QueueDef) (seen : List (String × String)),
      dupScanQueues none seen qs = .ok seen := by
  intro qs
  induction qs with
  | nil => intro seen; rfl
  | cons q qs ih =>
      intro seen
      have hc : q.phase = none ∨ q.phase ≠ none := by
        by_cases h : q.phase = none
        · exact Or.inl h
        · exact Or.inr h
      simp only [dupScanQueues]
      rw [if_pos hc]
      exact ih seen

/-- The phase loop reports no duplicate exactly when every phase's scan
succeeds. -/
theorem dupCheckPhases_none_iff (p : ProgramDef) :
    ∀ phs : List (Option String),
      dupCheckPhases p phs = none ↔
        ∀ ph ∈ phs, scanOk (dupScanQueues ph [] p.queues) = true := by
  intro phs
  induction phs with
  | nil => simp [dupCheckPhases]
  | cons ph rest ih =>
      simp only [dupCheckPhases]
      rcases hq : dupScanQueues ph [] p.queues with e | s
      · apply iff_of_false
        · simp
        · intro hall
          have := hall ph (List.mem_cons_self ph rest)
          rw [hq] at this
          simp [scanOk] at this
      · constructor
        · intro h ph2 hm
          rcases List.mem_cons.mp hm with rfl | hm2
          · rw [hq]; rfl
          · exact (ih.mp h) ph2 hm2
        · intro hall
          exact ih.mpr (fun ph2 hm2 => hall ph2 (List.mem_cons_of_mem ph hm2))

/-- The three-queue program used to witness the duplicate-event
characterization: two idle queues with distinct events and an unassigned
queue reusing one of them. -/
def progC5Witness : ProgramDef :=
  { srcname := "-",
    queues := [{ name := "a", events := ["x"], phase := some "idle" },
               { name := "b", events := ["y"], phase := some "idle" },
               { name := "c", events := ["x"] }] }

end Dios

/-- C5 (amended): the duplicate-event validation fails exactly when some
event name occurs twice across the concatenated event lists of the
queues sharing one non-None owning phase — including twice within a
single queue's own list — while queues with no owning phase are exempt
from the check.  (The hypothesis that every queue's phase lies in the
phase universe is guaranteed in parse_lines, whose unknown-phase check
runs first.) -/
theorem c5_dup_check_characterization (p : Dios.ProgramDef)
    (h : ∀ q ∈ p.queues, q.phase ∈ Dios.allPhasesOf p) :
    Dios.dupCheckPhases p (Dios.allPhasesOf p) = none ↔
      ∀ ph : Option String, ph ≠ none → (Dios.phaseEvents ph p.queues).Nodup := by
  rw [Dios.dupCheckPhases_none_iff p (Dios.allPhasesOf p)]
  constructor
  · intro hall ph hph
    by_cases hin : ph ∈ Dios.allPhasesOf p
    · have := hall ph hin
      rw [Dios.dupScanQueues_ok_iff ph hph p.queues []] at this
      exact this.1
    · have hfe : (p.queues.filter (fun q => q.phase = ph)) = [] := by
        rw [List.filter_eq_nil_iff]
        intro q hq hdq
        have heq : q.phase = ph := of_decide_eq_true hdq
        exact hin (heq ▸ h q hq)
      unfold Dios.phaseEvents
      rw [hfe]
      simp
  · intro hall ph hin
    by_cases hph : ph = none
    · subst hph
      rw [Dios.dupScanQueues_none_phase p.queues []]
      rfl
    · rw [Dios.dupScanQueues_ok_iff ph hph p.queues []]
      refine ⟨hall ph hph, ?_⟩
      intro e he
      simp [Dios.seenKeys]

/-- C5 witness: the characterization applied to a concrete program with
two idle queues and an unassigned queue sharing an event with one of
them; the check passes, matching the right-hand side. -/
theorem c5_dup_check_characterization_witness :
    (∀ q ∈ Dios.progC5Witness.queues, q.phase ∈ Dios.allPhasesOf Dios.progC5Witness) ∧
    (Dios.dupCheckPhases Dios.progC5Witness (Dios.allPhasesOf Dios.progC5Witness) = none ↔
      ∀ ph : Option String, ph ≠ none →
        (Dios.phaseEvents ph Dios.progC5Witness.queues).Nodup) :=
  ⟨by decide, c5_dup_check_characterization Dios.progC5Witness (by decide)⟩
